import Mathlib

/-
Shallow embedding of the k8s-fuse tree-population engine
(src/cmd/k8s-fuse.go).  The external collaborators — the Kubernetes
client (list queries), the JSON marshaller, the connection bootstrap and
the FUSE host layer — are modelled as function parameters; the code of
the repository itself (the OnAdd population hooks, Getattr, and the
mount subcommand) is translated directly.  Go panics are modelled as an
`Option GoPanic` component of the result, paired with the state of the
node at the moment of the panic; `AddChild(name, ch, overwrite)` from
the host layer keeps the existing child when `overwrite` is false.
-/

namespace K8sFuse

/-- Error returned by a Kubernetes list query (external collaborator). -/
structure ListError where
  msg : String
deriving DecidableEq

/-- Error returned by json.MarshalIndent (external collaborator). -/
structure SerializationError where
  msg : String
deriving DecidableEq

/-- Error returned by connection bootstrap, both by
clientcmd.BuildConfigFromFlags and by kubernetes.NewForConfig. -/
structure ConnError where
  msg : String
deriving DecidableEq

/-- A named Kubernetes resource: its name together with the rest of the
object (the payload), kept abstract in the type parameter.  Namespaces,
services, deployments and ingresses are all of this shape; the Go code
reads only `.Name` and marshals the whole object. -/
structure Resource (α : Type) where
  name : String
  payload : α
deriving DecidableEq

/-- A filesystem node as created by the population hooks: either an
immutable in-memory regular file (fs.MemRegularFile with its data and
mode) or one of the directory node kinds of the source, each carrying
the clientset handle (type parameter κ) and its namespace binding. -/
inductive FSNode (κ α : Type) where
  | memRegularFile (data : String) (mode : Nat)
  | namespaceDir (clientset : κ) (ns : Resource α)
  | servicesDir (clientset : κ) (nsName : String)
  | deploymentsDir (clientset : κ) (nsName : String)
  | ingressDir (clientset : κ) (nsName : String)
deriving DecidableEq

/-- Whether a directory already has a child of the given name. -/
def hasChild (children : List (String × FSNode κ α)) (n : String) : Bool :=
  children.any (fun c => c.fst = n)

/-- Model of go-fuse Inode.AddChild: when a child of that name already
exists and overwrite is false, nothing changes; with overwrite it is
replaced in place; otherwise the child is appended, so list order is
registration order. -/
def addChild (children : List (String × FSNode κ α)) (n : String)
    (node : FSNode κ α) (overwrite : Bool) : List (String × FSNode κ α) :=
  if hasChild children n then
    if overwrite then
      children.map (fun c => if c.fst = n then (n, node) else c)
    else children
  else children ++ [(n, node)]

/-- Child lookup by name (first entry wins, matching map semantics since
names are unique once inserted through addChild). -/
def lookupChild (children : List (String × FSNode κ α)) (n : String) :
    Option (FSNode κ α) :=
  (children.find? (fun c => c.fst = n)).map Prod.snd

/-- A Go panic raised inside a population hook, tagged with the error
that was passed to panic(err). -/
inductive GoPanic where
  | listErr (e : ListError)
  | marshalErr (e : SerializationError)
  | configErr (e : ConnError)
  | clientErr (e : ConnError)
deriving DecidableEq

/-- Result of running a population hook: the children of the node after
the hook (also when it panics part-way) and the panic, if one occurred. -/
abbrev OnAddResult (κ α : Type) := List (String × FSNode κ α) × Option GoPanic

/-- The loop shared by the three collection OnAdd hooks: for each listed
resource, marshal it (panicking on a marshal error) and register a
0644 in-memory file named after the resource, without overwrite. -/
def addResourceFiles (marshal : Resource α → Except SerializationError String)
    (children : List (String × FSNode κ α)) :
    List (Resource α) → OnAddResult κ α
  | [] => (children, none)
  | r :: rest =>
    match marshal r with
    | .error e => (children, some (.marshalErr e))
    | .ok b =>
      addResourceFiles marshal
        (addChild children r.name (.memRegularFile b 0o644) false) rest

/-- KubernetesServices.OnAdd: list the services of the bound namespace
(panicking on a ListError), then register one marshalled file per item. -/
def KubernetesServices.OnAdd
    (listServices : Except ListError (List (Resource α)))
    (marshal : Resource α → Except SerializationError String)
    (children : List (String × FSNode κ α)) : OnAddResult κ α :=
  match listServices with
  | .error e => (children, some (.listErr e))
  | .ok services => addResourceFiles marshal children services

/-- KubernetesDeployments.OnAdd: same population loop, bound to the
deployments list query. -/
def KubernetesDeployments.OnAdd
    (listDeployments : Except ListError (List (Resource α)))
    (marshal : Resource α → Except SerializationError String)
    (children : List (String × FSNode κ α)) : OnAddResult κ α :=
  match listDeployments with
  | .error e => (children, some (.listErr e))
  | .ok deployments => addResourceFiles marshal children deployments

/-- KubernetesIngress.OnAdd: same population loop, bound to the
ingresses list query. -/
def KubernetesIngress.OnAdd
    (listIngresses : Except ListError (List (Resource α)))
    (marshal : Resource α → Except SerializationError String)
    (children : List (String × FSNode κ α)) : OnAddResult κ α :=
  match listIngresses with
  | .error e => (children, some (.listErr e))
  | .ok ingresses => addResourceFiles marshal children ingresses

/-- KubernetesNamespace.OnAdd: marshal the namespace object into a 0644
file named namespace.json, then register the three collection
directories, each bound to this clientset and this namespace name. -/
def KubernetesNamespace.OnAdd (clientset : κ) (ns : Resource α)
    (marshal : Resource α → Except SerializationError String)
    (children : List (String × FSNode κ α)) : OnAddResult κ α :=
  match marshal ns with
  | .error e => (children, some (.marshalErr e))
  | .ok b =>
    let c1 := addChild children "namespace.json" (.memRegularFile b 0o644) false
    let c2 := addChild c1 "services" (.servicesDir clientset ns.name) false
    let c3 := addChild c2 "deployments" (.deploymentsDir clientset ns.name) false
    (addChild c3 "ingresses" (.ingressDir clientset ns.name) false, none)

/-- State of the root node: the lazily initialized shared clientset and
the children registered so far. -/
structure KubernetesRoot (κ α : Type) where
  clientset : Option κ
  children : List (String × FSNode κ α)
deriving DecidableEq

/-- Default kubeconfig path built in KubernetesRoot.OnAdd: the value of
filepath.Join(home, ".kube", "config") when the home directory is
nonempty, and the empty string otherwise. -/
def kubeconfigDefault (home : String) : String :=
  if home ≠ "" then home ++ "/.kube/config" else ""

/-- The loop of KubernetesRoot.OnAdd: for each listed namespace,
register a namespace directory named after it, without overwrite. -/
def addNamespaceDirs (clientset : κ)
    (children : List (String × FSNode κ α)) :
    List (Resource α) → List (String × FSNode κ α)
  | [] => children
  | ns :: rest =>
    addNamespaceDirs clientset
      (addChild children ns.name (.namespaceDir clientset ns) false) rest

/-- KubernetesRoot.OnAdd: bootstrap the shared clientset from the
default kubeconfig path when it is still nil (panicking on either
bootstrap error), store it, list the namespaces (panicking on a
ListError), and register one namespace directory per item. -/
def KubernetesRoot.OnAdd (home : String)
    (buildConfigFromFlags : String → Except ConnError γ)
    (newForConfig : γ → Except ConnError κ)
    (listNamespaces : κ → Except ListError (List (Resource α)))
    (r : KubernetesRoot κ α) : KubernetesRoot κ α × Option GoPanic :=
  match r.clientset with
  | none =>
    match buildConfigFromFlags (kubeconfigDefault home) with
    | .error e => (r, some (.configErr e))
    | .ok config =>
      match newForConfig config with
      | .error e => (r, some (.clientErr e))
      | .ok clientset =>
        match listNamespaces clientset with
        | .error e => ({ r with clientset := some clientset }, some (.listErr e))
        | .ok namespaces =>
          ({ clientset := some clientset,
             children := addNamespaceDirs clientset r.children namespaces },
           none)
  | some clientset =>
    match listNamespaces clientset with
    | .error e => (r, some (.listErr e))
    | .ok namespaces =>
      ({ r with children := addNamespaceDirs clientset r.children namespaces },
       none)

/-- Attribute record exposed through Getattr, reduced to the field the
source writes. -/
structure AttrOut where
  mode : Nat
deriving DecidableEq

/-- KubernetesRoot.Getattr: set out.Mode to 0755 and return errno 0. -/
def KubernetesRoot.Getattr (out : AttrOut) : AttrOut × Nat :=
  ({ out with mode := 0o755 }, 0)

/-- Outcome of the mount subcommand run function. -/
inductive RunOutcome (σ : Type) where
  | indexOutOfRange
  | mountFail (e : ConnError)
  | waited (server : σ)
deriving DecidableEq

/-- The Run function of mountCmd: index args[0] unconditionally (the
guarded embedding returns the out-of-range branch on an empty argument
list), mount there, log.Fatalf on a mount error, else wait on the
server. -/
def mountCmdRun (fsMount : String → Except ConnError σ)
    (args : List String) : RunOutcome σ :=
  match args with
  | [] => .indexOutOfRange
  | a :: _ =>
    match fsMount a with
    | .error e => .mountFail e
    | .ok server => .waited server

/-- The child entry the collection loop registers for one resource,
given the serialization the marshaller produced for it. -/
def resourceFileEntry (ser : Resource α → String) (r : Resource α) :
    String × FSNode κ α :=
  (r.name, .memRegularFile (ser r) 0o644)

theorem addChild_of_has (cs : List (String × FSNode κ α)) (n : String)
    (node : FSNode κ α) (h : hasChild cs n = true) :
    addChild cs n node false = cs := by
  simp [addChild, h]

theorem addChild_of_not_has (cs : List (String × FSNode κ α)) (n : String)
    (node : FSNode κ α) (h : hasChild cs n = false) :
    addChild cs n node false = cs ++ [(n, node)] := by
  simp [addChild, h]

theorem lookupChild_eq_none_iff (cs : List (String × FSNode κ α)) (n : String) :
    lookupChild cs n = none ↔ hasChild cs n = false := by
  simp [lookupChild, hasChild, Option.map_eq_none, List.find?_eq_none,
    List.any_eq_false]

theorem mem_addChild_false (cs : List (String × FSNode κ α)) (n : String)
    (node : FSNode κ α) (c : String × FSNode κ α)
    (h : c ∈ addChild cs n node false) : c ∈ cs ∨ c = (n, node) := by
  by_cases hc : hasChild cs n = true
  · rw [addChild_of_has _ _ _ hc] at h
    exact Or.inl h
  · rw [addChild_of_not_has _ _ _ (by simpa using hc)] at h
    rcases List.mem_append.mp h with h1 | h1
    · exact Or.inl h1
    · exact Or.inr (by simpa using h1)

theorem addChild_false_keys_nodup (cs : List (String × FSNode κ α))
    (n : String) (node : FSNode κ α)
    (h : (cs.map Prod.fst).Nodup) :
    ((addChild cs n node false).map Prod.fst).Nodup := by
  by_cases hc : hasChild cs n = true
  · rw [addChild_of_has _ _ _ hc]; exact h
  · rw [addChild_of_not_has _ _ _ (by simpa using hc)]
    have hnm : n ∉ cs.map Prod.fst := by
      simp only [hasChild, List.any_eq_true, not_exists] at hc
      intro hmem
      rcases List.mem_map.mp hmem with ⟨c, hcmem, hfst⟩
      exact hc c ⟨hcmem, by simp [hfst]⟩
    simp [List.nodup_append, h, hnm]

theorem addResourceFiles_eq_append
    (marshal : Resource α → Except SerializationError String)
    (ser : Resource α → String) (cs : List (String × FSNode κ α))
    (rs : List (Resource α))
    (hser : ∀ r ∈ rs, marshal r = Except.ok (ser r))
    (hnodup : (rs.map Resource.name).Nodup)
    (hdisj : ∀ r ∈ rs, hasChild cs r.name = false) :
    addResourceFiles marshal cs rs =
      (cs ++ rs.map (resourceFileEntry ser), none) := by
  induction rs generalizing cs with
  | nil => simp [addResourceFiles]
  | cons r rest ih =>
    simp only [addResourceFiles, hser r (List.mem_cons_self r rest)]
    rw [addChild_of_not_has _ _ _ (hdisj r (List.mem_cons_self r rest))]
    simp only [List.map_cons] at hnodup
    have hnodup2 := hnodup.of_cons
    have hhead : r.name ∉ rest.map Resource.name :=
      (List.nodup_cons.mp hnodup).1
    rw [ih (cs ++ [(r.name, FSNode.memRegularFile (ser r) 0o644)])
      (fun x hx => hser x (List.mem_cons_of_mem r hx)) hnodup2 ?_]
    · simp [resourceFileEntry]
    · intro x hx
      have hne : r.name ≠ x.name := by
        intro he
        exact hhead (he ▸ List.mem_map_of_mem Resource.name hx)
      have hx2 := hdisj x (List.mem_cons_of_mem r hx)
      simp [hasChild, List.any_append] at hx2 ⊢
      exact ⟨hx2, fun he => (hne he).elim⟩

theorem addResourceFiles_snd_none
    (marshal : Resource α → Except SerializationError String)
    (ser : Resource α → String) (cs : List (String × FSNode κ α))
    (rs : List (Resource α))
    (hser : ∀ r ∈ rs, marshal r = Except.ok (ser r)) :
    (addResourceFiles (κ := κ) marshal cs rs).snd = none := by
  induction rs generalizing cs with
  | nil => simp [addResourceFiles]
  | cons r rest ih =>
    simp only [addResourceFiles, hser r (List.mem_cons_self r rest)]
    exact ih _ (fun x hx => hser x (List.mem_cons_of_mem r hx))

theorem addResourceFiles_keys_nodup
    (marshal : Resource α → Except SerializationError String)
    (ser : Resource α → String) (cs : List (String × FSNode κ α))
    (rs : List (Resource α))
    (hser : ∀ r ∈ rs, marshal r = Except.ok (ser r))
    (hkeys : (cs.map Prod.fst).Nodup) :
    (((addResourceFiles (κ := κ) marshal cs rs).fst).map Prod.fst).Nodup := by
  induction rs generalizing cs with
  | nil => simpa [addResourceFiles] using hkeys
  | cons r rest ih =>
    simp only [addResourceFiles, hser r (List.mem_cons_self r rest)]
    exact ih _ (fun x hx => hser x (List.mem_cons_of_mem r hx))
      (addChild_false_keys_nodup _ _ _ hkeys)

theorem lookupChild_append (cs ds : List (String × FSNode κ α)) (n : String) :
    lookupChild (cs ++ ds) n =
      match lookupChild cs n with
      | some v => some v
      | none => lookupChild ds n := by
  simp only [lookupChild, List.find?_append]
  cases h : cs.find? (fun c => c.fst = n) <;> simp [Option.orElse]

theorem lookupChild_addResourceFiles
    (marshal : Resource α → Except SerializationError String)
    (ser : Resource α → String) (cs : List (String × FSNode κ α))
    (rs : List (Resource α))
    (hser : ∀ r ∈ rs, marshal r = Except.ok (ser r)) (n : String) :
    lookupChild (addResourceFiles marshal cs rs).fst n =
      match lookupChild cs n with
      | some v => some v
      | none =>
        (rs.find? (fun r => r.name = n)).map
          (fun r => FSNode.memRegularFile (ser r) 0o644) := by
  induction rs generalizing cs with
  | nil =>
    cases h : lookupChild cs n <;> simp [addResourceFiles, h]
  | cons r rest ih =>
    simp only [addResourceFiles, hser r (List.mem_cons_self r rest)]
    rw [ih _ (fun x hx => hser x (List.mem_cons_of_mem r hx))]
    by_cases hc : hasChild cs r.name = true
    · rw [addChild_of_has _ _ _ hc]
      cases h : lookupChild cs n with
      | some v => rfl
      | none =>
        have hfalse : hasChild cs n = false :=
          (lookupChild_eq_none_iff cs n).mp h
        have hne : r.name ≠ n := by
          intro he
          rw [he] at hc
          rw [hc] at hfalse
          simp at hfalse
        rw [List.find?_cons_of_neg _ (by simpa using hne)]
    · rw [addChild_of_not_has _ _ _ (by simpa using hc)]
      rw [lookupChild_append]
      cases h : lookupChild cs n with
      | some v => rfl
      | none =>
        by_cases hn : r.name = n
        · subst hn
          simp [lookupChild, List.find?_cons_of_pos]
        · rw [List.find?_cons_of_neg _ (by simpa using hn)]
          simp [lookupChild, hn]

theorem addNamespaceDirs_eq_append (clientset : κ)
    (cs : List (String × FSNode κ α)) (nss : List (Resource α))
    (hnodup : (nss.map Resource.name).Nodup)
    (hdisj : ∀ ns ∈ nss, hasChild cs ns.name = false) :
    addNamespaceDirs clientset cs nss =
      cs ++ nss.map (fun ns => (ns.name, FSNode.namespaceDir clientset ns)) := by
  induction nss generalizing cs with
  | nil => simp [addNamespaceDirs]
  | cons ns rest ih =>
    simp only [addNamespaceDirs]
    rw [addChild_of_not_has _ _ _ (hdisj ns (List.mem_cons_self ns rest))]
    simp only [List.map_cons] at hnodup
    have hhead : ns.name ∉ rest.map Resource.name :=
      (List.nodup_cons.mp hnodup).1
    rw [ih (cs ++ [(ns.name, FSNode.namespaceDir clientset ns)])
      hnodup.of_cons ?_]
    · simp
    · intro x hx
      have hne : ns.name ≠ x.name := by
        intro he
        exact hhead (he ▸ List.mem_map_of_mem Resource.name hx)
      have hx2 := hdisj x (List.mem_cons_of_mem ns hx)
      simp [hasChild, List.any_append] at hx2 ⊢
      exact ⟨hx2, fun he => (hne he).elim⟩

theorem mem_addNamespaceDirs (clientset : κ)
    (cs : List (String × FSNode κ α)) (nss : List (Resource α))
    (c : String × FSNode κ α) (h : c ∈ addNamespaceDirs clientset cs nss) :
    c ∈ cs ∨ ∃ ns ∈ nss, c = (ns.name, FSNode.namespaceDir clientset ns) := by
  induction nss generalizing cs with
  | nil => exact Or.inl h
  | cons ns rest ih =>
    simp only [addNamespaceDirs] at h
    rcases ih _ h with h1 | ⟨ns2, hns2, rfl⟩
    · rcases mem_addChild_false _ _ _ _ h1 with h2 | h2
      · exact Or.inl h2
      · exact Or.inr ⟨ns, List.mem_cons_self ns rest, h2⟩
    · exact Or.inr ⟨ns2, List.mem_cons_of_mem ns hns2, rfl⟩

theorem lookupChild_map_entry (ser : Resource α → String)
    (rs : List (Resource α)) (hnodup : (rs.map Resource.name).Nodup)
    (r : Resource α) (hr : r ∈ rs) :
    lookupChild (rs.map (resourceFileEntry (κ := κ) ser)) r.name =
      some (.memRegularFile (ser r) 0o644) := by
  induction rs with
  | nil => exact absurd hr (List.not_mem_nil r)
  | cons r0 rest ih =>
    simp only [List.map_cons] at hnodup ⊢
    by_cases hn : r0.name = r.name
    · have : r = r0 := by
        rcases List.mem_cons.mp hr with h1 | h1
        · exact h1
        · exact absurd (hn ▸ List.mem_map_of_mem Resource.name h1)
            (List.nodup_cons.mp hnodup).1
      subst this
      simp [lookupChild, resourceFileEntry, List.find?_cons_of_pos]
    · have hr2 : r ∈ rest := by
        rcases List.mem_cons.mp hr with h1 | h1
        · exact absurd (h1 ▸ rfl) hn
        · exact h1
      rw [show (resourceFileEntry (κ := κ) ser r0 :: rest.map (resourceFileEntry ser)) =
            [resourceFileEntry (κ := κ) ser r0] ++ rest.map (resourceFileEntry ser) by simp,
        lookupChild_append]
      have : lookupChild [resourceFileEntry (κ := κ) ser r0] r.name = none := by
        simp [lookupChild, resourceFileEntry, hn]
      rw [this]
      exact ih hnodup.of_cons hr2

theorem namespace_onAdd_eq (clientset : κ) (ns : Resource α)
    (marshal : Resource α → Except SerializationError String) (b : String)
    (h : marshal ns = Except.ok b) :
    KubernetesNamespace.OnAdd clientset ns marshal [] =
      ([("namespace.json", .memRegularFile b 0o644),
        ("services", .servicesDir clientset ns.name),
        ("deployments", .deploymentsDir clientset ns.name),
        ("ingresses", .ingressDir clientset ns.name)], none) := by
  simp [KubernetesNamespace.OnAdd, h, addChild, hasChild]

/-- C1: population of a namespace directory creates exactly one leaf
file named namespace.json, mode 0644, whose content is the marshalled
serialization of the namespace descriptor, plus exactly three collection
subdirectories named services, deployments and ingresses, each bound to
its kind and to this namespace name and clientset; no other children are
created and no panic occurs. -/
theorem namespace_onAdd_exact_children (clientset : κ) (ns : Resource α)
    (marshal : Resource α → Except SerializationError String) (b : String)
    (h : marshal ns = Except.ok b) :
    KubernetesNamespace.OnAdd clientset ns marshal [] =
      ([("namespace.json", .memRegularFile b 0o644),
        ("services", .servicesDir clientset ns.name),
        ("deployments", .deploymentsDir clientset ns.name),
        ("ingresses", .ingressDir clientset ns.name)], none) :=
  namespace_onAdd_eq clientset ns marshal b h

/-- Witness for C1 at a concrete namespace and marshaller. -/
theorem namespace_onAdd_exact_children_witness :
    KubernetesNamespace.OnAdd (7 : Nat) (Resource.mk "default" (3 : Nat))
      (fun _ => Except.ok "PAYLOAD") [] =
      ([("namespace.json", .memRegularFile "PAYLOAD" 0o644),
        ("services", .servicesDir 7 "default"),
        ("deployments", .deploymentsDir 7 "default"),
        ("ingresses", .ingressDir 7 "default")], none) :=
  namespace_onAdd_exact_children 7 (Resource.mk "default" 3) _ "PAYLOAD" rfl

/-- C2: population of a collection node registers, in provider order,
one leaf file per listed resource, named after the resource, mode 0644,
content the marshalled serialization of that resource (resource names
are unique within a collection per the data model), and an empty listing
ends population with zero children and no panic. -/
theorem services_onAdd_registers_all (rs : List (Resource α))
    (marshal : Resource α → Except SerializationError String)
    (ser : Resource α → String)
    (hser : ∀ r ∈ rs, marshal r = Except.ok (ser r))
    (hnodup : (rs.map Resource.name).Nodup) :
    KubernetesServices.OnAdd (κ := κ) (Except.ok rs) marshal [] =
      (rs.map (resourceFileEntry ser), none) ∧
    KubernetesServices.OnAdd (κ := κ)
      (Except.ok ([] : List (Resource α))) marshal [] = ([], none) := by
  constructor
  · simp only [KubernetesServices.OnAdd]
    rw [addResourceFiles_eq_append marshal ser [] rs hser hnodup
      (fun r _ => rfl)]
    simp
  · rfl

/-- Witness for C2 at a concrete two-element listing. -/
theorem services_onAdd_registers_all_witness :
    KubernetesServices.OnAdd (κ := Nat)
      (Except.ok [Resource.mk "svc-a" (1 : Nat), Resource.mk "svc-b" 2])
      (fun r => Except.ok (toString r.payload)) [] =
      ([("svc-a", .memRegularFile "1" 0o644),
        ("svc-b", .memRegularFile "2" 0o644)], none) ∧
    KubernetesServices.OnAdd (κ := Nat)
      (Except.ok ([] : List (Resource Nat)))
      (fun r => Except.ok (toString r.payload)) [] = ([], none) :=
  services_onAdd_registers_all
    [Resource.mk "svc-a" 1, Resource.mk "svc-b" 2]
    (fun r => Except.ok (toString r.payload))
    (fun r => toString r.payload)
    (fun _ _ => rfl) (by decide)

/-- C4: a failing listing query makes population abort with a panic and
register no child: the collection nodes and the root keep their child
set unchanged on a ListError, both for a root whose clientset is already
initialized and for the uninitialized root that mountCmd creates, whose
bootstrap succeeds and whose namespace listing then fails (there only
the stored clientset changes, never the children). -/
theorem list_failure_leaves_children_unchanged (e eR : ListError)
    (marshal : Resource α → Except SerializationError String)
    (children children0 : List (String × FSNode κ α)) (home : String)
    (bc : String → Except ConnError γ) (nc : γ → Except ConnError κ)
    (r : KubernetesRoot κ α) (cs : κ) (config : γ) (cs2 : κ)
    (hr : r.clientset = some cs)
    (hb : bc (kubeconfigDefault home) = Except.ok config)
    (hc : nc config = Except.ok cs2) :
    KubernetesServices.OnAdd (Except.error e) marshal children =
      (children, some (.listErr e)) ∧
    KubernetesDeployments.OnAdd (Except.error e) marshal children =
      (children, some (.listErr e)) ∧
    KubernetesIngress.OnAdd (Except.error e) marshal children =
      (children, some (.listErr e)) ∧
    KubernetesRoot.OnAdd home bc nc (fun _ => Except.error eR) r =
      (r, some (.listErr eR)) ∧
    KubernetesRoot.OnAdd home bc nc (fun _ => Except.error eR)
        (KubernetesRoot.mk none children0) =
      (KubernetesRoot.mk (some cs2) children0, some (.listErr eR)) := by
  refine ⟨rfl, rfl, rfl, ?_, ?_⟩
  · simp [KubernetesRoot.OnAdd, hr]
  · simp [KubernetesRoot.OnAdd, hb, hc]

/-- Witness for C4 at concrete errors and a concrete root state. -/
theorem list_failure_leaves_children_unchanged_witness :
    KubernetesServices.OnAdd (κ := Nat) (α := Nat)
      (Except.error (ListError.mk "down")) (fun _ => Except.ok "x")
      [("old", .memRegularFile "o" 0o644)] =
      ([("old", .memRegularFile "o" 0o644)],
       some (.listErr (ListError.mk "down"))) ∧
    KubernetesDeployments.OnAdd (κ := Nat) (α := Nat)
      (Except.error (ListError.mk "down")) (fun _ => Except.ok "x")
      [("old", .memRegularFile "o" 0o644)] =
      ([("old", .memRegularFile "o" 0o644)],
       some (.listErr (ListError.mk "down"))) ∧
    KubernetesIngress.OnAdd (κ := Nat) (α := Nat)
      (Except.error (ListError.mk "down")) (fun _ => Except.ok "x")
      [("old", .memRegularFile "o" 0o644)] =
      ([("old", .memRegularFile "o" 0o644)],
       some (.listErr (ListError.mk "down"))) ∧
    KubernetesRoot.OnAdd "/home/u" (fun _ => Except.ok (0 : Nat))
      (fun _ => Except.ok (5 : Nat))
      (fun _ => Except.error (ListError.mk "api"))
      (KubernetesRoot.mk (α := Nat) (some 5) []) =
      (KubernetesRoot.mk (some 5) [],
       some (.listErr (ListError.mk "api"))) ∧
    KubernetesRoot.OnAdd "/home/u" (fun _ => Except.ok (0 : Nat))
      (fun _ => Except.ok (5 : Nat))
      (fun _ => Except.error (ListError.mk "api"))
      (KubernetesRoot.mk (α := Nat) none
        [("pre", .memRegularFile "p" 0o644)]) =
      (KubernetesRoot.mk (some 5) [("pre", .memRegularFile "p" 0o644)],
       some (.listErr (ListError.mk "api"))) :=
  list_failure_leaves_children_unchanged (ListError.mk "down")
    (ListError.mk "api") (fun _ => Except.ok "x")
    [("old", .memRegularFile "o" 0o644)]
    [("pre", .memRegularFile "p" 0o644)] "/home/u"
    (fun _ => Except.ok (0 : Nat)) (fun _ => Except.ok (5 : Nat))
    (KubernetesRoot.mk (some 5) []) 5 0 5 rfl rfl rfl

/-- C5: a Getattr query on the root reports a mode that is readable and
executable by owner, group and others (0755), with no write permission
for group or others, and returns errno 0. -/
theorem root_getattr_mode (out : AttrOut) :
    KubernetesRoot.Getattr out = (AttrOut.mk 0o755, 0) ∧
    Nat.land (KubernetesRoot.Getattr out).fst.mode 0o444 = 0o444 ∧
    Nat.land (KubernetesRoot.Getattr out).fst.mode 0o111 = 0o111 ∧
    Nat.land (KubernetesRoot.Getattr out).fst.mode 0o022 = 0 := by
  have h : (KubernetesRoot.Getattr out).fst.mode = 0o755 := rfl
  exact ⟨rfl, by rw [h]; decide, by rw [h]; decide, by rw [h]; decide⟩

/-- C10: the Run function of the mount subcommand indexes its argument
list unconditionally, so with zero positional arguments the guarded
embedding takes the out-of-range branch, and with at least one argument
it never does. -/
theorem mountCmd_requires_one_arg (f : String → Except ConnError σ) :
    mountCmdRun f [] = RunOutcome.indexOutOfRange ∧
    ∀ (a : String) (rest : List String),
      mountCmdRun f (a :: rest) ≠ RunOutcome.indexOutOfRange := by
  refine ⟨rfl, ?_⟩
  intro a rest
  simp only [mountCmdRun]
  cases f a <;> simp

/-- Witness for C10 at a concrete mount function and argument list. -/
theorem mountCmd_requires_one_arg_witness :
    mountCmdRun (fun s => Except.ok s) [] = RunOutcome.indexOutOfRange ∧
    mountCmdRun (fun s => Except.ok s) ["/mnt/k8s"] ≠
      RunOutcome.indexOutOfRange :=
  ⟨(mountCmd_requires_one_arg (fun s => Except.ok s)).1,
   (mountCmd_requires_one_arg (fun s => Except.ok s)).2 "/mnt/k8s" []⟩

/-- C3: root population bootstraps the shared clientset from the
home-relative default kubeconfig path exactly when it is still nil,
stores it for reuse, lists the namespaces, and registers one namespace
directory per listed namespace in provider order, keyed by the namespace
name; when the clientset is already initialized the bootstrap
collaborators are not consulted at all. -/
theorem root_onAdd_bootstrap_and_registers (home : String)
    (bc : String → Except ConnError γ) (nc : γ → Except ConnError κ)
    (nss : List (Resource α)) (config : γ) (clientset : κ)
    (hb : bc (kubeconfigDefault home) = Except.ok config)
    (hc : nc config = Except.ok clientset)
    (hnodup : (nss.map Resource.name).Nodup) :
    KubernetesRoot.OnAdd home bc nc (fun _ => Except.ok nss)
        (KubernetesRoot.mk none []) =
      (KubernetesRoot.mk (some clientset)
        (nss.map (fun ns => (ns.name, FSNode.namespaceDir clientset ns))),
       none) ∧
    ∀ (b2 : String → Except ConnError γ) (n2 : γ → Except ConnError κ)
      (cs0 : κ),
      KubernetesRoot.OnAdd home b2 n2 (fun _ => Except.ok nss)
          (KubernetesRoot.mk (some cs0) []) =
        (KubernetesRoot.mk (some cs0)
          (nss.map (fun ns => (ns.name, FSNode.namespaceDir cs0 ns))),
         none) := by
  constructor
  · simp only [KubernetesRoot.OnAdd, hb, hc]
    rw [addNamespaceDirs_eq_append clientset [] nss hnodup (fun _ _ => rfl)]
    simp
  · intro b2 n2 cs0
    simp only [KubernetesRoot.OnAdd]
    rw [addNamespaceDirs_eq_append cs0 [] nss hnodup (fun _ _ => rfl)]
    simp

/-- Witness for C3 at a concrete bootstrap and namespace listing. -/
theorem root_onAdd_bootstrap_and_registers_witness :
    KubernetesRoot.OnAdd "/home/u" (fun _ => Except.ok (0 : Nat))
        (fun _ => Except.ok (9 : Nat))
        (fun _ => Except.ok [Resource.mk "default" (1 : Nat),
          Resource.mk "kube-system" 2])
        (KubernetesRoot.mk none []) =
      (KubernetesRoot.mk (some 9)
        [("default", FSNode.namespaceDir 9 (Resource.mk "default" 1)),
         ("kube-system",
          FSNode.namespaceDir 9 (Resource.mk "kube-system" 2))], none) ∧
    ∀ (b2 : String → Except ConnError Nat) (n2 : Nat → Except ConnError Nat)
      (cs0 : Nat),
      KubernetesRoot.OnAdd "/home/u" b2 n2
          (fun _ => Except.ok [Resource.mk "default" (1 : Nat),
            Resource.mk "kube-system" 2])
          (KubernetesRoot.mk (some cs0) []) =
        (KubernetesRoot.mk (some cs0)
          [("default", FSNode.namespaceDir cs0 (Resource.mk "default" 1)),
           ("kube-system",
            FSNode.namespaceDir cs0 (Resource.mk "kube-system" 2))],
         none) :=
  root_onAdd_bootstrap_and_registers "/home/u" (fun _ => Except.ok 0)
    (fun _ => Except.ok 9)
    [Resource.mk "default" 1, Resource.mk "kube-system" 2] 0 9 rfl rfl
    (by decide)

/-- C6: round-trip — whenever deserialization is a left inverse of the
marshaller on the resources involved, deserializing the bytes stored in
namespace.json yields exactly the namespace descriptor the provider
returned, and deserializing the bytes stored in the file named after
each listed resource yields exactly that resource. -/
theorem population_roundtrip (clientset : κ) (ns : Resource α)
    (rs : List (Resource α))
    (marshal : Resource α → Except SerializationError String)
    (ser : Resource α → String) (deser : String → Option (Resource α))
    (hser : ∀ r ∈ ns :: rs, marshal r = Except.ok (ser r))
    (hinv : ∀ r ∈ ns :: rs, deser (ser r) = some r)
    (hnodup : (rs.map Resource.name).Nodup) :
    (∃ b, lookupChild (KubernetesNamespace.OnAdd clientset ns marshal []).fst
        "namespace.json" = some (.memRegularFile b 0o644) ∧
      deser b = some ns) ∧
    ∀ r ∈ rs, ∃ b,
      lookupChild
        (KubernetesServices.OnAdd (κ := κ) (Except.ok rs) marshal []).fst
        r.name = some (.memRegularFile b 0o644) ∧ deser b = some r := by
  constructor
  · refine ⟨ser ns, ?_, hinv ns (List.mem_cons_self ns rs)⟩
    rw [namespace_onAdd_eq clientset ns marshal (ser ns)
      (hser ns (List.mem_cons_self ns rs))]
    rfl
  · intro r hr
    refine ⟨ser r, ?_, hinv r (List.mem_cons_of_mem ns hr)⟩
    simp only [KubernetesServices.OnAdd]
    rw [addResourceFiles_eq_append marshal ser [] rs
      (fun x hx => hser x (List.mem_cons_of_mem ns hx)) hnodup
      (fun _ _ => rfl)]
    simpa using lookupChild_map_entry ser rs hnodup r hr

/-- Witness for C6 at a concrete namespace, listing and marshaller with
a concrete left-inverse deserializer. -/
theorem population_roundtrip_witness :
    (∃ b, lookupChild (KubernetesNamespace.OnAdd (7 : Nat)
        (Resource.mk "default" (0 : Nat))
        (fun r => Except.ok (toString r.payload)) []).fst
        "namespace.json" = some (.memRegularFile b 0o644) ∧
      (fun s => if s = "0" then some (Resource.mk "default" (0 : Nat))
        else if s = "1" then some (Resource.mk "svc-a" 1)
        else if s = "2" then some (Resource.mk "ing-1" 2)
        else none) b = some (Resource.mk "default" 0)) ∧
    ∀ r ∈ [Resource.mk "svc-a" (1 : Nat), Resource.mk "ing-1" 2], ∃ b,
      lookupChild (KubernetesServices.OnAdd (κ := Nat)
        (Except.ok [Resource.mk "svc-a" (1 : Nat), Resource.mk "ing-1" 2])
        (fun r => Except.ok (toString r.payload)) []).fst
        r.name = some (.memRegularFile b 0o644) ∧
      (fun s => if s = "0" then some (Resource.mk "default" (0 : Nat))
        else if s = "1" then some (Resource.mk "svc-a" 1)
        else if s = "2" then some (Resource.mk "ing-1" 2)
        else none) b = some r :=
  population_roundtrip 7 (Resource.mk "default" 0)
    [Resource.mk "svc-a" 1, Resource.mk "ing-1" 2]
    (fun r => Except.ok (toString r.payload))
    (fun r => toString r.payload)
    (fun s => if s = "0" then some (Resource.mk "default" 0)
      else if s = "1" then some (Resource.mk "svc-a" 1)
      else if s = "2" then some (Resource.mk "ing-1" 2)
      else none)
    (fun _ _ => rfl) (by decide) (by decide)

/-- C7: the shared clientset is initialized at most once and shared by
every created node — an already-initialized clientset survives root
population unchanged under every bootstrap collaborator, every namespace
directory the root registers holds the clientset the root stored, and
the three collection directories a namespace node registers hold that
namespace node clientset. -/
theorem clientset_shared_once (home : String)
    (lister : κ → Except ListError (List (Resource α)))
    (marshal : Resource α → Except SerializationError String)
    (ns : Resource α) (cs1 : κ) (b : String)
    (hm : marshal ns = Except.ok b) :
    (∀ (bc : String → Except ConnError γ) (nc : γ → Except ConnError κ)
       (r : KubernetesRoot κ α) (cs0 : κ), r.clientset = some cs0 →
       ((KubernetesRoot.OnAdd home bc nc lister r).fst).clientset =
         some cs0) ∧
    (∀ (bc : String → Except ConnError γ) (nc : γ → Except ConnError κ)
       (nss : List (Resource α)) (clientset : κ) (config : γ),
       bc (kubeconfigDefault home) = Except.ok config →
       nc config = Except.ok clientset →
       lister clientset = Except.ok nss →
       ∀ c ∈ ((KubernetesRoot.OnAdd home bc nc lister
           (KubernetesRoot.mk none [])).fst).children,
         ∃ ns2 ∈ nss, c = (ns2.name, FSNode.namespaceDir clientset ns2)) ∧
    (lookupChild (KubernetesNamespace.OnAdd cs1 ns marshal []).fst
        "services" = some (.servicesDir cs1 ns.name) ∧
     lookupChild (KubernetesNamespace.OnAdd cs1 ns marshal []).fst
        "deployments" = some (.deploymentsDir cs1 ns.name) ∧
     lookupChild (KubernetesNamespace.OnAdd cs1 ns marshal []).fst
        "ingresses" = some (.ingressDir cs1 ns.name)) := by
  refine ⟨?_, ?_, ?_⟩
  · intro bc nc r cs0 hr
    simp only [KubernetesRoot.OnAdd, hr]
    cases h : lister cs0 <;> simp [hr]
  · intro bc nc nss clientset config hb hc hl c hcmem
    simp only [KubernetesRoot.OnAdd, hb, hc, hl] at hcmem
    rcases mem_addNamespaceDirs clientset [] nss c hcmem with h1 | h1
    · exact absurd h1 (List.not_mem_nil c)
    · exact h1
  · rw [namespace_onAdd_eq cs1 ns marshal b hm]
    exact ⟨rfl, rfl, rfl⟩

/-- Witness for C7 at a concrete clientset, listing and marshaller. -/
theorem clientset_shared_once_witness :
    (∀ (bc : String → Except ConnError Nat)
       (nc : Nat → Except ConnError Nat)
       (r : KubernetesRoot Nat Nat) (cs0 : Nat), r.clientset = some cs0 →
       ((KubernetesRoot.OnAdd "/h" bc nc
           (fun _ => Except.ok [Resource.mk "default" (1 : Nat)])
           r).fst).clientset = some cs0) ∧
    (∀ (bc : String → Except ConnError Nat)
       (nc : Nat → Except ConnError Nat)
       (nss : List (Resource Nat)) (clientset : Nat) (config : Nat),
       bc (kubeconfigDefault "/h") = Except.ok config →
       nc config = Except.ok clientset →
       (Except.ok [Resource.mk "default" (1 : Nat)] :
         Except ListError (List (Resource Nat))) = Except.ok nss →
       ∀ c ∈ ((KubernetesRoot.OnAdd "/h" bc nc
           (fun _ => Except.ok [Resource.mk "default" (1 : Nat)])
           (KubernetesRoot.mk none [])).fst).children,
         ∃ ns2 ∈ nss, c = (ns2.name, FSNode.namespaceDir clientset ns2)) ∧
    (lookupChild (KubernetesNamespace.OnAdd (3 : Nat)
        (Resource.mk "ns1" (2 : Nat)) (fun _ => Except.ok "B") []).fst
        "services" = some (.servicesDir 3 "ns1") ∧
     lookupChild (KubernetesNamespace.OnAdd (3 : Nat)
        (Resource.mk "ns1" (2 : Nat)) (fun _ => Except.ok "B") []).fst
        "deployments" = some (.deploymentsDir 3 "ns1") ∧
     lookupChild (KubernetesNamespace.OnAdd (3 : Nat)
        (Resource.mk "ns1" (2 : Nat)) (fun _ => Except.ok "B") []).fst
        "ingresses" = some (.ingressDir 3 "ns1")) :=
  clientset_shared_once "/h"
    (fun _ => Except.ok [Resource.mk "default" 1])
    (fun _ => Except.ok "B") (Resource.mk "ns1" 2) 3 "B" rfl

/-- C9: duplicate-name policy — when marshalling succeeds for every
listed resource, population of a collection node never panics, the
registered child names are pairwise distinct even when the listing
repeats a name, and the child registered under any name is the 0644
file produced from the first listed resource of that name. -/
theorem duplicate_names_first_occurrence (rs : List (Resource α))
    (marshal : Resource α → Except SerializationError String)
    (ser : Resource α → String)
    (hser : ∀ r ∈ rs, marshal r = Except.ok (ser r)) :
    (KubernetesServices.OnAdd (κ := κ) (Except.ok rs) marshal []).snd =
      none ∧
    (((KubernetesServices.OnAdd (κ := κ) (Except.ok rs) marshal []).fst.map
        Prod.fst).Nodup) ∧
    ∀ n, lookupChild
        (KubernetesServices.OnAdd (κ := κ) (Except.ok rs) marshal []).fst
        n =
      (rs.find? (fun r => r.name = n)).map
        (fun r => FSNode.memRegularFile (ser r) 0o644) := by
  refine ⟨?_, ?_, ?_⟩
  · exact addResourceFiles_snd_none marshal ser [] rs hser
  · exact addResourceFiles_keys_nodup marshal ser [] rs hser (by simp)
  · intro n
    rw [show (KubernetesServices.OnAdd (κ := κ) (Except.ok rs) marshal []) =
      addResourceFiles marshal [] rs from rfl]
    rw [lookupChild_addResourceFiles marshal ser [] rs hser n]
    rfl

/-- Witness for C9 at a listing that repeats the name a: the child kept
under a is the file of the first occurrence, payload 1. -/
theorem duplicate_names_first_occurrence_witness :
    (KubernetesServices.OnAdd (κ := Nat)
      (Except.ok [Resource.mk "a" (1 : Nat), Resource.mk "a" 2,
        Resource.mk "b" 3])
      (fun r => Except.ok (toString r.payload)) []).snd = none ∧
    (((KubernetesServices.OnAdd (κ := Nat)
      (Except.ok [Resource.mk "a" (1 : Nat), Resource.mk "a" 2,
        Resource.mk "b" 3])
      (fun r => Except.ok (toString r.payload)) []).fst.map
        Prod.fst).Nodup) ∧
    lookupChild (KubernetesServices.OnAdd (κ := Nat)
      (Except.ok [Resource.mk "a" (1 : Nat), Resource.mk "a" 2,
        Resource.mk "b" 3])
      (fun r => Except.ok (toString r.payload)) []).fst "a" =
      some (.memRegularFile "1" 0o644) := by
  have h := duplicate_names_first_occurrence (κ := Nat)
    [Resource.mk "a" 1, Resource.mk "a" 2, Resource.mk "b" 3]
    (fun r => Except.ok (toString r.payload))
    (fun r => toString r.payload) (fun _ _ => rfl)
  exact ⟨h.1, h.2.1, (h.2.2 "a").trans (by decide)⟩

end K8sFuse
